import Mathlib

/-!
Shallow embedding of `srv/sess.go` (session registry, sessions, parties,
the `multiWriter` broadcaster and the join-subsystem parser) together with
proofs about the claims of the specification.

Go maps are modelled as association lists over `String` keys (insertion
replaces the binding for an existing key, as Go map assignment does);
pointer mutation is modelled by explicit state passing: each operation
returns the updated structures.  External effects (terminal allocation,
`cmd` start, terminal close, sink writes, uuid generation) are supplied as
explicit call environments, and terminal lifecycle actions are recorded in
an event trace so that "a terminal was created / closed exactly once" can
be stated.
-/

set_option autoImplicit false

namespace Teleport

/-- Errors produced by the code of `sess.go` or by its external
collaborators.  `sessionNotFound sid` models
`fmt.Errorf("session %v not found", sid)` (sess.go:59,83),
`partyNotFound pid` models `fmt.Errorf("failed to find party: %v", pid)`
(sess.go:199), `errShortWrite` models `io.ErrShortWrite` (sess.go:286),
and `other n` stands for an arbitrary error returned by an external
collaborator (terminal allocation, `run`, a sink's `Write`, `Close`). -/
inductive GoError where
  | sessionNotFound (sid : String)
  | partyNotFound (pid : String)
  | errShortWrite
  | other (n : Nat)
deriving DecidableEq, Repr

/-- An allocated pseudo-terminal handle (`*term` in the source), identified
by a number so that distinct allocations can be told apart. -/
structure Term where
  tid : Nat
deriving DecidableEq, Repr

/-- The `execResult` value broadcast when the command exits. -/
structure ExecResult where
  code : Int
deriving DecidableEq, Repr

/-- Outcome of a call to `newTerm()` (sess.go:137): either a fresh terminal
handle or an allocation error. -/
inductive TermAlloc where
  | ok (t : Term)
  | fail (e : GoError)
deriving DecidableEq, Repr

/-- Lookup in a Go map modelled as an association list
(`v, ok := m[k]`). -/
def alookup {α : Type} : List (String × α) → String → Option α
  | [], _ => none
  | (k, v) :: rest, k' => if k = k' then some v else alookup rest k'

/-- Assignment `m[k] = v` in a Go map modelled as an association list:
replace the binding if the key is present, append it otherwise. -/
def ainsert {α : Type} : List (String × α) → String → α → List (String × α)
  | [], k, v => [(k, v)]
  | (k', v') :: rest, k, v =>
      if k' = k then (k, v) :: rest else (k', v') :: ainsert rest k v

/-- Deletion `delete(m, k)` in a Go map modelled as an association list. -/
def aerase {α : Type} : List (String × α) → String → List (String × α)
  | [], _ => []
  | (k', v) :: rest, k =>
      if k' = k then aerase rest k else (k', v) :: aerase rest k

/-- A write sink registered with the broadcaster (`io.Writer` in the
source).  `recv` records the byte slices delivered to the sink so far
(one entry per `Write` invocation); `ret` is the `(n, err)` pair the
sink's `Write` returns for the one slice under consideration. -/
structure Sink where
  recv : List (List Nat)
  ret : Nat × Option GoError
deriving DecidableEq, Repr

/-- Invoking a sink's `Write` with slice `p` records the delivery. -/
def Sink.deliver (w : Sink) (p : List Nat) : Sink :=
  { w with recv := w.recv ++ [p] }

/-- The broadcaster `multiWriter` (sess.go:259): a map from consumer id to
write sink. -/
structure MultiWriter where
  writers : List (String × Sink)
deriving DecidableEq, Repr

/-- `multiWriter.addWriter` (sess.go:264). -/
def MultiWriter.addWriter (m : MultiWriter) (id : String) (w : Sink) : MultiWriter :=
  { writers := ainsert m.writers id w }

/-- `multiWriter.deleteWriter` (sess.go:270). -/
def MultiWriter.deleteWriter (m : MultiWriter) (id : String) : MultiWriter :=
  { writers := aerase m.writers id }

/-- The fan-out loop of `multiWriter.Write` (sess.go:280-289): deliver `p`
to each sink in iteration order; on a sink error return it at once; on a
short count return `io.ErrShortWrite`; otherwise continue, and return
`(len(p), nil)` after the last sink. -/
def mwWriteLoop : List (String × Sink) → List Nat → List (String × Sink) × Nat × Option GoError
  | [], p => ([], p.length, none)
  | (id, w) :: rest, p =>
      let w' := w.deliver p
      match w.ret.2 with
      | some e => ((id, w') :: rest, w.ret.1, some e)
      | none =>
          if w.ret.1 ≠ p.length then
            ((id, w') :: rest, w.ret.1, some GoError.errShortWrite)
          else
            let r := mwWriteLoop rest p
            ((id, w') :: r.1, r.2)

/-- `multiWriter.Write` (sess.go:276): fan `p` out to every registered
sink, returning the updated sink states and the `(n, err)` result. -/
def MultiWriter.write (m : MultiWriter) (p : List Nat) : MultiWriter × Nat × Option GoError :=
  let r := mwWriteLoop m.writers p
  ({ writers := r.1 }, r.2)

/-- One attached party (sess.go:303).  The channel, connection and context
are external; the party is identified by its uuid. -/
structure PartyM where
  pid : String
deriving DecidableEq, Repr

/-- The per-connection context (`*ctx`), as far as this core touches it:
the inherited terminal slot (`getTerm`/`setTerm`) and the list of
registered closers (`addCloser`), recorded by party id. -/
structure Ctx where
  term : Option Term
  closers : List String
deriving DecidableEq, Repr

/-- Terminal lifecycle events recorded by the model: a fresh allocation
via `newTerm()`, adoption of an inherited terminal from the context,
a successful `t.run(cmd)`, and a `t.Close()` invocation. -/
inductive Event where
  | termAllocated (t : Term)
  | termAdopted (t : Term)
  | commandRun
  | termClosed (t : Term)
deriving DecidableEq, Repr

/-- Does the event acquire a terminal (fresh allocation or adoption)? -/
def isAcquire : Event → Bool
  | Event.termAllocated _ => true
  | Event.termAdopted _ => true
  | _ => false

/-- Is the event a terminal `Close` invocation? -/
def isClose : Event → Bool
  | Event.termClosed _ => true
  | _ => false

/-- Number of terminal acquisitions in a trace. -/
def acquires (evs : List Event) : Nat := (evs.filter isAcquire).length

/-- Number of terminal `Close` invocations in a trace. -/
def closes (evs : List Event) : Nat := (evs.filter isClose).length

/-- The external inputs consumed by one `newShell`/`joinShell` call:
the uuid handed out by `uuid.New()` for the new party, the outcome of
`newTerm()` were it to be called, and the outcome of `t.run(cmd)` were it
to be called (`none` = success). -/
structure CallEnv where
  partyId : String
  newTermResult : TermAlloc
  runResult : Option GoError
deriving DecidableEq, Repr

/-- Insert a sink id into the broadcaster's key set (the session-level
view of `addWriter`: the sinks attached by the session are parties and
the capture buffer, whose byte-level behaviour is external, so at this
level only the registered ids are tracked). -/
def widInsert (l : List String) (k : String) : List String :=
  if k ∈ l then l else l ++ [k]

/-- Remove a sink id from the broadcaster's key set (`deleteWriter`). -/
def widErase (l : List String) (k : String) : List String :=
  l.filter (fun x => x ≠ k)

/-- A live session (sess.go:104): its id, the parties map, the ids
registered with its broadcaster, and the terminal handle if one has been
acquired. -/
structure Session where
  id : String
  parties : List (String × PartyM)
  writerIds : List String
  t : Option Term
deriving DecidableEq, Repr

/-- `newSession` (sess.go:113): empty parties map, fresh broadcaster,
no terminal yet. -/
def newSession (id : String) : Session :=
  { id := id, parties := [], writerIds := [], t := none }

/-- `session.addParty` (sess.go:207): put the party in the parties map,
register it with the broadcaster under its id, and register it as a
closer on its connection context (the pump it launches is external I/O). -/
def Session.addParty (s : Session) (ctx : Ctx) (p : PartyM) : Session × Ctx :=
  ({ s with
      parties := ainsert s.parties p.pid p,
      writerIds := widInsert s.writerIds p.pid },
   { ctx with closers := ctx.closers ++ [p.pid] })

/-- `session.join` (sess.go:218): construct a new party and add it. -/
def Session.join (s : Session) (ctx : Ctx) (env : CallEnv) : Session × Ctx × PartyM :=
  let p : PartyM := { pid := env.partyId }
  let r := s.addParty ctx p
  (r.1, r.2, p)

/-- `session.leave` (sess.go:196): look the party up; if absent fail with
the not-found error; otherwise delete it from the parties map and
unregister its broadcaster sink. -/
def Session.leave (s : Session) (id : String) : Session × Option GoError :=
  match alookup s.parties id with
  | none => (s, some (GoError.partyNotFound id))
  | some p =>
      ({ s with
          parties := aerase s.parties p.pid,
          writerIds := widErase s.writerIds p.pid },
       none)

/-- `session.Close` (sess.go:122): close the terminal if one is present,
returning the close outcome supplied by the terminal (an external
collaborator); do nothing otherwise. -/
def Session.Close (s : Session) (closeResult : Option GoError) : List Event × Option GoError :=
  match s.t with
  | some t => ([Event.termClosed t], closeResult)
  | none => ([], none)

/-- `session.broadcastResult` (sess.go:186): invoke
`p.ctx.sendResult(r)` for every party in the parties map.  The returned
list is the delivery trace: one `(party id, result)` entry per hook
invocation, in iteration order. -/
def Session.broadcastResult (s : Session) (r : ExecResult) : List (String × ExecResult) :=
  s.parties.map (fun e => (e.2.pid, r))

/-- Result of `session.start`: the updated session and context, the
terminal lifecycle events that occurred, and the returned error. -/
structure StartResult where
  sess : Session
  ctx : Ctx
  events : List Event
  err : Option GoError
deriving DecidableEq, Repr

/-- The tail of `session.start` after a terminal has been acquired
(sess.go:142-183): run the command (propagating a failure), register the
capture sink, add the initiating party, launch the pumps (external). -/
def startRunPhase (s : Session) (ctx : Ctx) (env : CallEnv) (p : PartyM)
    (evs : List Event) : StartResult :=
  match env.runResult with
  | some e => { sess := s, ctx := ctx, events := evs, err := some e }
  | none =>
      let s1 : Session := { s with writerIds := widInsert s.writerIds "capture" }
      let r := s1.addParty ctx p
      { sess := r.1, ctx := r.2, events := evs ++ [Event.commandRun], err := none }

/-- `session.start` (sess.go:129): create the initiating party; adopt the
context's inherited terminal (clearing the context's slot) when present,
otherwise allocate a fresh one (propagating an allocation failure); then
run the command and wire the party up. -/
def Session.start (s : Session) (ctx : Ctx) (env : CallEnv) : StartResult :=
  let p : PartyM := { pid := env.partyId }
  match ctx.term with
  | some t =>
      startRunPhase { s with t := some t } { ctx with term := none } env p
        [Event.termAdopted t]
  | none =>
      match env.newTermResult with
      | TermAlloc.fail e => { sess := s, ctx := ctx, events := [], err := some e }
      | TermAlloc.ok t =>
          startRunPhase { s with t := some t } ctx env p [Event.termAllocated t]

/-- The session registry's table (sess.go:20). -/
structure Registry where
  sessions : List (String × Session)
deriving DecidableEq, Repr

/-- `sessionRegistry.findSession` (sess.go:89). -/
def Registry.findSession (reg : Registry) (id : String) : Option Session :=
  alookup reg.sessions id

/-- Result of a registry operation that may create a session. -/
structure RegResult where
  reg : Registry
  ctx : Ctx
  events : List Event
  err : Option GoError
deriving DecidableEq, Repr

/-- `sessionRegistry.newShell` (sess.go:26): build a fresh session, start
it, and on success insert it into the table under the session's own id;
on failure propagate the error without touching the table. -/
def Registry.newShell (reg : Registry) (sid : String) (ctx : Ctx) (env : CallEnv) : RegResult :=
  let r := (newSession sid).start ctx env
  match r.err with
  | some e => { reg := reg, ctx := r.ctx, events := r.events, err := some e }
  | none =>
      { reg := { sessions := ainsert reg.sessions r.sess.id r.sess },
        ctx := r.ctx, events := r.events, err := none }

/-- `sessionRegistry.joinShell` (sess.go:38): look the session up; when
absent fall through to `newShell`; when present join it (the in-place
pointer mutation of the found session is modelled by re-storing the
updated session under the key it was found at). -/
def Registry.joinShell (reg : Registry) (sid : String) (ctx : Ctx) (env : CallEnv) : RegResult :=
  match reg.findSession sid with
  | none => reg.newShell sid ctx env
  | some sess =>
      let j := sess.join ctx env
      { reg := { sessions := ainsert reg.sessions sid j.1 },
        ctx := j.2.1, events := [], err := none }

/-- `sessionRegistry.leaveShell` (sess.go:53): look the session up (absent
is a not-found error); let the party leave (an unknown party is an error
and mutates nothing); if parties remain, keep the session; otherwise
delete the session from the table and then close it, surfacing the close
error.  `closeResult` is the outcome the terminal's `Close` would
return. -/
def Registry.leaveShell (reg : Registry) (sid : String) (pid : String)
    (closeResult : Option GoError) : Registry × List Event × Option GoError :=
  match reg.findSession sid with
  | none => (reg, [], some (GoError.sessionNotFound sid))
  | some sess =>
      let l := sess.leave pid
      match l.2 with
      | some e => (reg, [], some e)
      | none =>
          if l.1.parties.length ≠ 0 then
            ({ sessions := ainsert reg.sessions sid l.1 }, [], none)
          else
            let c := l.1.Close closeResult
            ({ sessions := aerase reg.sessions l.1.id }, c.1, c.2)

/-- `sessionRegistry.broadcastResult` (sess.go:77): look the session up
(absent is a not-found error, nothing is delivered) and fan the result
out; the second component is the delivery trace. -/
def Registry.broadcastResult (reg : Registry) (sid : String) (r : ExecResult) :
    Option GoError × List (String × ExecResult) :=
  match reg.findSession sid with
  | none => (some (GoError.sessionNotFound sid), [])
  | some sess => (none, sess.broadcastResult r)

/-- One external call into the registry's shell entry points. -/
inductive RegCall where
  | newShell (sid : String) (ctx : Ctx) (env : CallEnv)
  | joinShell (sid : String) (ctx : Ctx) (env : CallEnv)
deriving DecidableEq, Repr

/-- Dispatch one registry call. -/
def applyCall (reg : Registry) : RegCall → RegResult
  | RegCall.newShell sid ctx env => reg.newShell sid ctx env
  | RegCall.joinShell sid ctx env => reg.joinShell sid ctx env

/-- Run a sequence of registry calls, accumulating the terminal lifecycle
events and the per-call errors. -/
def runCalls (reg : Registry) : List RegCall → Registry × List Event × List (Option GoError)
  | [] => (reg, [], [])
  | c :: cs =>
      let r := applyCall reg c
      let rest := runCalls r.reg cs
      (rest.1, r.events ++ rest.2.1, r.err :: rest.2.2)

/-- Run `leaveShell sid pid` for each pid in turn, accumulating the
terminal lifecycle events and the per-call errors. -/
def runLeaves (reg : Registry) (sid : String) (closeResult : Option GoError) :
    List String → Registry × List Event × List (Option GoError)
  | [] => (reg, [], [])
  | pid :: rest =>
      let r := reg.leaveShell sid pid closeResult
      let rr := runLeaves r.1 sid closeResult rest
      (rr.1, r.2.1 ++ rr.2.1, r.2.2 :: rr.2.2)

/-- The parties map of a session holding exactly the given party ids. -/
def mkParties : List String → List (String × PartyM)
  | [] => []
  | p :: rest => (p, { pid := p }) :: mkParties rest

/-- Go's `strings.TrimPrefix` on the character lists underlying the
strings: drop the leading occurrence of `pre` when it is present,
return `s` unchanged otherwise. -/
def trimPrefixGo (pre s : String) : String :=
  if pre.data.isPrefixOf s.data then { data := s.data.drop pre.data.length } else s

/-- The `joinSubsys` value built by the parser (sess.go:224). -/
structure JoinSubsys where
  sid : String
deriving DecidableEq, Repr

/-- `parseJoinSubsys` (sess.go:229): strip the `"join:"` prefix from the
request name and always succeed. -/
def parseJoinSubsys (name : String) : JoinSubsys × Option GoError :=
  ({ sid := trimPrefixGo "join:" name }, none)

/-! ### Helper lemmas about the association-list map operations -/

theorem alookup_ainsert_self {α : Type} (l : List (String × α)) (k : String) (v : α) :
    alookup (ainsert l k v) k = some v := by
  induction l with
  | nil => simp [ainsert, alookup]
  | cons hd tl ih =>
      obtain ⟨k1, v1⟩ := hd
      by_cases h : k1 = k
      · simp [ainsert, alookup, h]
      · simp [ainsert, alookup, h, ih]

theorem ainsert_of_alookup_none {α : Type} (l : List (String × α)) (k : String) (v : α)
    (h : alookup l k = none) : ainsert l k v = l ++ [(k, v)] := by
  induction l with
  | nil => rfl
  | cons hd tl ih =>
      obtain ⟨k1, v1⟩ := hd
      by_cases hk : k1 = k
      · simp [alookup, hk] at h
      · simp only [alookup, hk, if_false, ite_false] at h
        simp [ainsert, hk, ih h]

theorem alookup_append_single_none {α : Type} (l : List (String × α)) (k k1 : String) (v : α)
    (h : alookup l k = none) (hk : k1 ≠ k) : alookup (l ++ [(k1, v)]) k = none := by
  induction l with
  | nil => simp [alookup, hk]
  | cons hd tl ih =>
      obtain ⟨k2, v2⟩ := hd
      by_cases h2 : k2 = k
      · simp [alookup, h2] at h
      · simp only [alookup, h2, if_false, ite_false] at h
        simp [alookup, h2, ih h]

theorem aerase_of_keys_ne {α : Type} (l : List (String × α)) (k : String)
    (h : ∀ e ∈ l, e.1 ≠ k) : aerase l k = l := by
  induction l with
  | nil => rfl
  | cons hd tl ih =>
      have hhd : hd.1 ≠ k := h hd (by simp)
      have htl : ∀ e ∈ tl, e.1 ≠ k := fun e he => h e (by simp [he])
      obtain ⟨k1, v1⟩ := hd
      simp only at hhd
      simp [aerase, hhd, ih htl]

theorem aerase_mkParties_not_mem (pids : List String) (k : String) (h : k ∉ pids) :
    aerase (mkParties pids) k = mkParties pids := by
  induction pids with
  | nil => rfl
  | cons p rest ih =>
      have hp : p ≠ k := fun hc => h (hc ▸ List.mem_cons_self p rest)
      have hr : k ∉ rest := fun hc => h (List.mem_cons_of_mem p hc)
      simp [mkParties, aerase, hp, ih hr]

theorem alookup_mkParties_head (p : String) (rest : List String) :
    alookup (mkParties (p :: rest)) p = some { pid := p } := by
  simp [mkParties, alookup]

theorem mkParties_length (pids : List String) : (mkParties pids).length = pids.length := by
  induction pids with
  | nil => rfl
  | cons p rest ih => simp [mkParties, ih]

/-! ### Helper lemmas about `session.start` -/

theorem start_sess_id (s : Session) (ctx : Ctx) (env : CallEnv) :
    (s.start ctx env).sess.id = s.id := by
  cases hc : ctx.term with
  | some t =>
      cases hr : env.runResult <;>
        simp [Session.start, startRunPhase, Session.addParty, hc, hr]
  | none =>
      cases ha : env.newTermResult with
      | fail e => simp [Session.start, hc, ha]
      | ok t =>
          cases hr : env.runResult <;>
            simp [Session.start, startRunPhase, Session.addParty, hc, ha, hr]

theorem start_err_some (s : Session) (ctx : Ctx) (env : CallEnv) (e : GoError)
    (h : (ctx.term = none ∧ env.newTermResult = TermAlloc.fail e) ∨
         (env.runResult = some e ∧
           (ctx.term.isSome = true ∨ ∃ t, env.newTermResult = TermAlloc.ok t))) :
    (s.start ctx env).err = some e := by
  rcases h with ⟨h1, h2⟩ | ⟨h1, h2⟩
  · simp [Session.start, h1, h2]
  · cases hc : ctx.term with
    | some t => simp [Session.start, startRunPhase, hc, h1]
    | none =>
        rcases h2 with h2 | ⟨t, ht⟩
        · rw [hc] at h2
          simp at h2
        · simp [Session.start, startRunPhase, hc, ht, h1]

theorem start_ok_shape (s : Session) (ctx : Ctx) (env : CallEnv)
    (h : (s.start ctx env).err = none) :
    ∃ ev t, isAcquire ev = true ∧
      (s.start ctx env).events = [ev, Event.commandRun] ∧
      (s.start ctx env).sess =
        { id := s.id,
          parties := ainsert s.parties env.partyId { pid := env.partyId },
          writerIds := widInsert (widInsert s.writerIds "capture") env.partyId,
          t := some t } := by
  cases hc : ctx.term with
  | some t =>
      cases hr : env.runResult with
      | some e => simp [Session.start, startRunPhase, hc, hr] at h
      | none =>
          refine ⟨Event.termAdopted t, t, rfl, ?_, ?_⟩ <;>
            simp [Session.start, startRunPhase, Session.addParty, hc, hr]
  | none =>
      cases ha : env.newTermResult with
      | fail e => simp [Session.start, hc, ha] at h
      | ok t =>
          cases hr : env.runResult with
          | some e => simp [Session.start, startRunPhase, hc, ha, hr] at h
          | none =>
              refine ⟨Event.termAllocated t, t, rfl, ?_, ?_⟩ <;>
                simp [Session.start, startRunPhase, Session.addParty, hc, ha, hr]

/-! ### Claim theorems -/

/-- C7: for every session and every party id not present in that session's
parties map, `session.leave` returns the party-not-found error and leaves
the session — its parties map and its broadcaster sink set included —
unchanged. -/
theorem leave_unknown_party_not_found (s : Session) (pid : String)
    (h : alookup s.parties pid = none) :
    s.leave pid = (s, some (GoError.partyNotFound pid)) := by
  unfold Session.leave
  rw [h]

/-- Witness for C7 at a concrete session holding parties "a" and "b". -/
theorem leave_unknown_party_not_found_witness :
    Session.leave
        { id := "s", parties := mkParties ["a", "b"], writerIds := ["capture", "a", "b"],
          t := some { tid := 0 } } "zz" =
      ({ id := "s", parties := mkParties ["a", "b"], writerIds := ["capture", "a", "b"],
          t := some { tid := 0 } }, some (GoError.partyNotFound "zz")) :=
  leave_unknown_party_not_found _ "zz" (by decide)

/-- C6: when `session.start` fails — the terminal allocation fails, or the
terminal is acquired (inherited from the context or freshly allocated)
and starting the command fails — `newShell` returns exactly that error
and the registry's session table is unchanged: no session is inserted
under any key. -/
theorem newShell_start_failure_no_insert (reg : Registry) (sid : String) (ctx : Ctx)
    (env : CallEnv) (e : GoError)
    (h : (ctx.term = none ∧ env.newTermResult = TermAlloc.fail e) ∨
         (env.runResult = some e ∧
           (ctx.term.isSome = true ∨ ∃ t, env.newTermResult = TermAlloc.ok t))) :
    (reg.newShell sid ctx env).reg = reg ∧ (reg.newShell sid ctx env).err = some e := by
  have he := start_err_some (newSession sid) ctx env e h
  constructor <;> simp [Registry.newShell, he]

/-- Witness for C6: the command fails to start on a context that carries
an inherited terminal; the run error is returned and the table (holding
an unrelated session) is untouched. -/
theorem newShell_start_failure_no_insert_witness :
    (Registry.newShell { sessions := [("other", newSession "other")] } "s"
        { term := some { tid := 2 }, closers := [] }
        { partyId := "p", newTermResult := TermAlloc.fail (GoError.other 9),
          runResult := some (GoError.other 4) }).reg =
      { sessions := [("other", newSession "other")] } ∧
    (Registry.newShell { sessions := [("other", newSession "other")] } "s"
        { term := some { tid := 2 }, closers := [] }
        { partyId := "p", newTermResult := TermAlloc.fail (GoError.other 9),
          runResult := some (GoError.other 4) }).err = some (GoError.other 4) :=
  newShell_start_failure_no_insert _ "s" _ _ (GoError.other 4)
    (Or.inr ⟨rfl, Or.inl rfl⟩)

/-- C8: when the connection context carries an inherited terminal,
`session.start` clears the context's terminal slot before attempting to
run the command, the session object retains the adopted terminal, and a
run failure is returned as the error — so on the failure path the
context's slot is already nil and the terminal lives only in the
(unregistered) session object. -/
theorem start_consumes_inherited_terminal (s : Session) (ctx : Ctx) (env : CallEnv)
    (t : Term) (h : ctx.term = some t) :
    (s.start ctx env).ctx.term = none ∧ (s.start ctx env).sess.t = some t ∧
    (∀ e, env.runResult = some e → (s.start ctx env).err = some e) := by
  cases hr : env.runResult with
  | some e =>
      refine ⟨?_, ?_, ?_⟩ <;>
        simp [Session.start, startRunPhase, Session.addParty, h, hr]
  | none =>
      refine ⟨?_, ?_, ?_⟩ <;>
        simp [Session.start, startRunPhase, Session.addParty, h, hr]

/-- Witness for C8: a concrete context carrying terminal 3 and a failing
run; the slot is cleared, the session keeps the terminal, the error is
returned. -/
theorem start_consumes_inherited_terminal_witness :
    ((newSession "s").start { term := some { tid := 3 }, closers := [] }
        { partyId := "p", newTermResult := TermAlloc.fail (GoError.other 9),
          runResult := some (GoError.other 4) }).ctx.term = none ∧
    ((newSession "s").start { term := some { tid := 3 }, closers := [] }
        { partyId := "p", newTermResult := TermAlloc.fail (GoError.other 9),
          runResult := some (GoError.other 4) }).sess.t = some { tid := 3 } ∧
    ((newSession "s").start { term := some { tid := 3 }, closers := [] }
        { partyId := "p", newTermResult := TermAlloc.fail (GoError.other 9),
          runResult := some (GoError.other 4) }).err = some (GoError.other 4) := by
  have h := start_consumes_inherited_terminal (newSession "s")
    { term := some { tid := 3 }, closers := [] }
    { partyId := "p", newTermResult := TermAlloc.fail (GoError.other 9),
      runResult := some (GoError.other 4) } { tid := 3 } rfl
  exact ⟨h.1, h.2.1, h.2.2 (GoError.other 4) rfl⟩

/-- C9: a successful `newShell(sid, ...)` stores a session whose id equals
the caller-supplied `sid` under exactly the key `sid`; the server never
generates its own session id, so a later caller supplying the same id
addresses the same table slot. -/
theorem newShell_uses_caller_sid (reg : Registry) (sid : String) (ctx : Ctx) (env : CallEnv)
    (h : ((newSession sid).start ctx env).err = none) :
    (reg.newShell sid ctx env).err = none ∧
    ((newSession sid).start ctx env).sess.id = sid ∧
    (reg.newShell sid ctx env).reg.sessions =
      ainsert reg.sessions sid ((newSession sid).start ctx env).sess ∧
    (reg.newShell sid ctx env).reg.findSession sid =
      some ((newSession sid).start ctx env).sess := by
  have hid : ((newSession sid).start ctx env).sess.id = sid :=
    start_sess_id (newSession sid) ctx env
  refine ⟨?_, hid, ?_, ?_⟩
  · simp [Registry.newShell, h]
  · simp [Registry.newShell, h, hid]
  · simp [Registry.newShell, Registry.findSession, h, hid, alookup_ainsert_self]

/-- Witness for C9 at a concrete successful call. -/
theorem newShell_uses_caller_sid_witness :
    (Registry.newShell { sessions := [] } "s" { term := none, closers := [] }
        { partyId := "p1", newTermResult := TermAlloc.ok { tid := 0 },
          runResult := none }).err = none ∧
    ((newSession "s").start { term := none, closers := [] }
        { partyId := "p1", newTermResult := TermAlloc.ok { tid := 0 },
          runResult := none }).sess.id = "s" ∧
    (Registry.newShell { sessions := [] } "s" { term := none, closers := [] }
        { partyId := "p1", newTermResult := TermAlloc.ok { tid := 0 },
          runResult := none }).reg.sessions =
      ainsert [] "s" ((newSession "s").start { term := none, closers := [] }
        { partyId := "p1", newTermResult := TermAlloc.ok { tid := 0 },
          runResult := none }).sess ∧
    (Registry.newShell { sessions := [] } "s" { term := none, closers := [] }
        { partyId := "p1", newTermResult := TermAlloc.ok { tid := 0 },
          runResult := none }).reg.findSession "s" =
      some ((newSession "s").start { term := none, closers := [] }
        { partyId := "p1", newTermResult := TermAlloc.ok { tid := 0 },
          runResult := none }).sess :=
  newShell_uses_caller_sid { sessions := [] } "s" _ _ (by decide)

/-- Character lists are prefixes of their own extensions. -/
theorem isPrefixOf_append_self (l m : List Char) : l.isPrefixOf (l ++ m) = true := by
  induction l with
  | nil => cases m <;> rfl
  | cons a as ih => simp [List.isPrefixOf, ih]

/-- C10: `parseJoinSubsys` returns a nil error on every input; an input of
the form `"join:" ++ sid` yields session id `sid`, and an input that does
not begin with `"join:"` is passed through whole as the session id — no
join request is rejected at parse time. -/
theorem parseJoinSubsys_never_fails :
    (∀ name : String, (parseJoinSubsys name).2 = none) ∧
    (∀ sid : String, (parseJoinSubsys ("join:" ++ sid)).1.sid = sid) ∧
    (∀ name : String, "join:".data.isPrefixOf name.data = false →
      (parseJoinSubsys name).1.sid = name) := by
  refine ⟨fun _ => rfl, ?_, ?_⟩
  · intro sid
    simp only [parseJoinSubsys, trimPrefixGo, String.data_append, List.drop_left]
    rw [if_pos (isPrefixOf_append_self _ _)]
  · intro name h
    simp [parseJoinSubsys, trimPrefixGo, h]

/-- Witness for C10 at concrete inputs: a well-formed join request and a
malformed one. -/
theorem parseJoinSubsys_never_fails_witness :
    (parseJoinSubsys "join:abc").2 = none ∧
    (parseJoinSubsys ("join:" ++ "abc")).1.sid = "abc" ∧
    (parseJoinSubsys "abc").1.sid = "abc" :=
  ⟨parseJoinSubsys_never_fails.1 "join:abc",
   parseJoinSubsys_never_fails.2.1 "abc",
   parseJoinSubsys_never_fails.2.2 "abc" rfl⟩

/-- Fan-out loop behaviour when every sink in the list accepts the full
slice: every sink receives `p` exactly once and the loop reports
`(len(p), nil)`. -/
theorem mwWriteLoop_all_ok (p : List Nat) :
    ∀ l : List (String × Sink), (∀ e ∈ l, e.2.ret = (p.length, (none : Option GoError))) →
      mwWriteLoop l p = (l.map (fun e => (e.1, e.2.deliver p)), p.length, none) := by
  intro l
  induction l with
  | nil => intro _; rfl
  | cons hd tl ih =>
      intro h
      obtain ⟨id, w⟩ := hd
      have hw : w.ret = (p.length, none) := h (id, w) (by simp)
      have htl := ih (fun e he => h e (by simp [he]))
      simp [mwWriteLoop, hw, htl]

/-- C3: when every currently registered sink's `Write` returns
`(len(p), nil)`, the broadcaster's `Write(p)` delivers the slice `p`
exactly once to every registered sink — each sink's receive log grows by
exactly the one entry `p` — and returns `(len(p), nil)`. -/
theorem multiWriter_write_fanout_complete (m : MultiWriter) (p : List Nat)
    (h : ∀ e ∈ m.writers, e.2.ret = (p.length, (none : Option GoError))) :
    m.write p =
      ({ writers := m.writers.map (fun e => (e.1, e.2.deliver p)) }, p.length, none) := by
  unfold MultiWriter.write
  rw [mwWriteLoop_all_ok p m.writers h]

/-- Witness for C3: the capture sink and two party sinks all receive the
two-byte slice once and the call returns `(2, nil)`. -/
theorem multiWriter_write_fanout_complete_witness :
    MultiWriter.write
        { writers := [("capture", { recv := [], ret := (2, none) }),
                      ("p1", { recv := [], ret := (2, none) }),
                      ("p2", { recv := [], ret := (2, none) })] } [7, 8] =
      ({ writers := [("capture", { recv := [[7, 8]], ret := (2, none) }),
                     ("p1", { recv := [[7, 8]], ret := (2, none) }),
                     ("p2", { recv := [[7, 8]], ret := (2, none) })] }, 2, none) := by
  have h := multiWriter_write_fanout_complete
    { writers := [("capture", { recv := [], ret := (2, none) }),
                  ("p1", { recv := [], ret := (2, none) }),
                  ("p2", { recv := [], ret := (2, none) })] } [7, 8] (by decide)
  exact h.trans (by decide)

/-- Fan-out loop behaviour at the first failing sink: the sinks before it
accept the slice in full, the failing sink receives the slice and returns
either an error or a short count, every later sink is left untouched, and
the loop returns the failing sink's count together with the sink's error
when there is one or `io.ErrShortWrite` otherwise. -/
theorem mwWriteLoop_fail_fast (p : List Nat) (id : String) (w : Sink)
    (post : List (String × Sink))
    (hfail : w.ret.2 ≠ none ∨ w.ret.1 ≠ p.length) :
    ∀ pre : List (String × Sink),
      (∀ e ∈ pre, e.2.ret = (p.length, (none : Option GoError))) →
      mwWriteLoop (pre ++ (id, w) :: post) p =
        (pre.map (fun e => (e.1, e.2.deliver p)) ++ (id, w.deliver p) :: post,
         w.ret.1, some (w.ret.2.getD GoError.errShortWrite)) := by
  intro pre
  induction pre with
  | nil =>
      intro _
      cases hr : w.ret.2 with
      | some e => simp [mwWriteLoop, hr]
      | none =>
          have hne : w.ret.1 ≠ p.length := by
            rcases hfail with hf | hf
            · exact absurd hr hf
            · exact hf
          simp [mwWriteLoop, hr, hne]
  | cons hd tl ih =>
      intro h
      obtain ⟨id1, w1⟩ := hd
      have hw1 : w1.ret = (p.length, none) := h (id1, w1) (by simp)
      have htl := ih (fun e he => h e (by simp [he]))
      simp [mwWriteLoop, hw1, htl]

/-- C4 (amended): when the first failing sink in iteration order either
returns an error or reports fewer bytes than `len(p)`, the broadcaster
aborts there — no later sink receives the data of this call — and reports
an error to the caller: the failing sink's own error when it returned one,
and `io.ErrShortWrite` when it merely wrote short. -/
theorem multiWriter_write_fail_fast (pre post : List (String × Sink)) (id : String)
    (w : Sink) (p : List Nat)
    (hpre : ∀ e ∈ pre, e.2.ret = (p.length, (none : Option GoError)))
    (hfail : w.ret.2 ≠ none ∨ w.ret.1 ≠ p.length) :
    MultiWriter.write { writers := pre ++ (id, w) :: post } p =
      ({ writers := pre.map (fun e => (e.1, e.2.deliver p)) ++ (id, w.deliver p) :: post },
       w.ret.1, some (w.ret.2.getD GoError.errShortWrite)) := by
  unfold MultiWriter.write
  rw [mwWriteLoop_fail_fast p id w post hfail pre hpre]

/-- Witness for C4 (amended): sink "b" errors after sink "a" accepted the
slice; sink "c" receives nothing and the sink's own error is returned. -/
theorem multiWriter_write_fail_fast_witness :
    MultiWriter.write
        { writers := [("a", { recv := [], ret := (2, none) }),
                      ("b", { recv := [], ret := (2, some (GoError.other 3)) }),
                      ("c", { recv := [], ret := (2, none) })] } [7, 8] =
      ({ writers := [("a", { recv := [[7, 8]], ret := (2, none) }),
                     ("b", { recv := [[7, 8]], ret := (2, some (GoError.other 3)) }),
                     ("c", { recv := [], ret := (2, none) })] },
       2, some (GoError.other 3)) := by
  have h := multiWriter_write_fail_fast [("a", { recv := [], ret := (2, none) })]
    [("c", { recv := [], ret := (2, none) })] "b"
    { recv := [], ret := (2, some (GoError.other 3)) } [7, 8] (by decide) (by decide)
  exact h.trans (by decide)

/-- Counterexample to C4 as stated: a registered sink whose `Write`
returns the error `other 3` makes the broadcaster return that sink's own
error, which is not the short-write error the claim promises. -/
theorem multiWriter_write_sink_error_not_short_write :
    (MultiWriter.write
        { writers := [("a", { recv := [], ret := (1, some (GoError.other 3)) })] }
        [9]).2.2 = some (GoError.other 3) ∧
    GoError.other 3 ≠ GoError.errShortWrite := by decide

/-- The delivery trace of `session.broadcastResult` counts invocations for
an id exactly as the parties map holds parties with that id. -/
theorem countP_broadcastResult (s : Session) (r : ExecResult) (pid : String) :
    (s.broadcastResult r).countP (fun q => q.1 == pid) =
      s.parties.countP (fun e => e.2.pid == pid) := by
  unfold Session.broadcastResult
  rw [List.countP_map]
  rfl

/-- In a parties map whose bindings use the party's own id as the key and
whose keys are free of duplicates, the number of entries carrying a given
party id is one when the id is in the map and zero otherwise. -/
theorem countP_parties_eq (pid : String) :
    ∀ l : List (String × PartyM), (∀ e ∈ l, e.1 = e.2.pid) →
      (l.map Prod.fst).Nodup →
      l.countP (fun e => e.2.pid == pid) =
        (if (alookup l pid).isSome then 1 else 0) := by
  intro l
  induction l with
  | nil => intro _ _; simp [alookup]
  | cons hd tl ih =>
      intro hk hnd
      obtain ⟨k, v⟩ := hd
      have hkv : k = v.pid := hk (k, v) (by simp)
      have hktl : ∀ e ∈ tl, e.1 = e.2.pid := fun e he => hk e (by simp [he])
      rw [List.map_cons, List.nodup_cons] at hnd
      by_cases hek : k = pid
      · have hz : tl.countP (fun e => e.2.pid == pid) = 0 := by
          rw [List.countP_eq_zero]
          intro e he
          have h1 : e.1 = e.2.pid := hktl e he
          have h2 : e.1 ∈ tl.map Prod.fst := List.mem_map_of_mem Prod.fst he
          have h3 : e.1 ≠ k := fun hc => hnd.1 (hc ▸ h2)
          simp only [beq_iff_eq]
          exact fun hc => h3 (by rw [h1, hc, hek])
        simp [List.countP_cons, alookup, hek, ← hkv, hz]
      · have hvp : (v.pid == pid) = false := by
          simp only [beq_eq_false_iff_ne]
          exact fun hc => hek (by rw [hkv, hc])
        simp only [List.countP_cons, hvp, cond_false, Nat.add_zero, alookup, hek,
          if_false, ite_false]
        exact ih hktl hnd.2

/-- C5: `session.broadcastResult(r)` invokes the result-delivery hook with
`r` exactly once for each party present in the parties map at call time
and for no other id, and `registry.broadcastResult(sid, r)` returns the
session-not-found error and delivers nothing when `sid` is not in the
session table. -/
theorem broadcastResult_exactly_once_per_party (s : Session) (r : ExecResult)
    (hk : ∀ e ∈ s.parties, e.1 = e.2.pid)
    (hnd : (s.parties.map Prod.fst).Nodup) :
    (∀ pid, (s.broadcastResult r).countP (fun q => q.1 == pid) =
        (if (alookup s.parties pid).isSome then 1 else 0)) ∧
    (∀ q ∈ s.broadcastResult r, q.2 = r) ∧
    (∀ (reg : Registry) (sid : String), reg.findSession sid = none →
        reg.broadcastResult sid r = (some (GoError.sessionNotFound sid), [])) := by
  refine ⟨?_, ?_, ?_⟩
  · intro pid
    rw [countP_broadcastResult]
    exact countP_parties_eq pid s.parties hk hnd
  · intro q hq
    simp only [Session.broadcastResult, List.mem_map] at hq
    obtain ⟨e, _, rfl⟩ := hq
    rfl
  · intro reg sid h
    unfold Registry.broadcastResult
    rw [h]

/-- Witness for C5: a session with parties "a" and "b" delivers once to
"a" and never to the absent id "zz"; an empty registry reports the
not-found error. -/
theorem broadcastResult_exactly_once_per_party_witness :
    (Session.broadcastResult
        { id := "s", parties := mkParties ["a", "b"], writerIds := ["capture", "a", "b"],
          t := some { tid := 0 } } { code := 0 }).countP (fun q => q.1 == "a") = 1 ∧
    (Session.broadcastResult
        { id := "s", parties := mkParties ["a", "b"], writerIds := ["capture", "a", "b"],
          t := some { tid := 0 } } { code := 0 }).countP (fun q => q.1 == "zz") = 0 ∧
    Registry.broadcastResult { sessions := [] } "z" { code := 0 } =
      (some (GoError.sessionNotFound "z"), []) := by
  have h := broadcastResult_exactly_once_per_party
    { id := "s", parties := mkParties ["a", "b"], writerIds := ["capture", "a", "b"],
      t := some { tid := 0 } } { code := 0 } (by decide) (by decide)
  exact ⟨(h.1 "a").trans (by decide), (h.1 "zz").trans (by decide),
    h.2.2 { sessions := [] } "z" (by decide)⟩

/-- Unfolding lemma for `runLeaves` on a non-empty pid list. -/
theorem runLeaves_cons (reg : Registry) (sid : String) (closeRes : Option GoError)
    (pid : String) (rest : List String) :
    runLeaves reg sid closeRes (pid :: rest) =
      ((runLeaves (reg.leaveShell sid pid closeRes).1 sid closeRes rest).1,
       (reg.leaveShell sid pid closeRes).2.1 ++
         (runLeaves (reg.leaveShell sid pid closeRes).1 sid closeRes rest).2.1,
       (reg.leaveShell sid pid closeRes).2.2 ::
         (runLeaves (reg.leaveShell sid pid closeRes).1 sid closeRes rest).2.2) := rfl

/-- `leaveShell` for the last party of a registered session: the party is
removed, the session is deleted from the table, the terminal is closed
once, and the close outcome is returned. -/
theorem leaveShell_last_party (sid p : String) (wids : List String) (t : Term)
    (closeRes : Option GoError) :
    Registry.leaveShell
        { sessions := [(sid, { id := sid, parties := mkParties [p],
                               writerIds := wids, t := some t })] } sid p closeRes =
      ({ sessions := [] }, [Event.termClosed t], closeRes) := by
  have h1 := alookup_mkParties_head p []
  have h2 : aerase (mkParties [p]) p = mkParties [] := by
    simp [mkParties, aerase]
  simp [Registry.leaveShell, Registry.findSession, alookup, Session.leave, h1, h2,
    Session.Close, mkParties, aerase]

theorem alookup_mkParties_mem (x : String) :
    ∀ pids : List String, x ∈ pids → alookup (mkParties pids) x = some { pid := x } := by
  intro pids
  induction pids with
  | nil => intro h; cases h
  | cons p rest ih =>
      intro h
      by_cases hp : p = x
      · subst hp; simp [mkParties, alookup]
      · have hx : x ∈ rest := by
          rcases List.mem_cons.mp h with h1 | h1
          · exact absurd h1.symm hp
          · exact h1
        simp [mkParties, alookup, hp, ih hx]

theorem aerase_mkParties_erase (x : String) :
    ∀ pids : List String, pids.Nodup →
      aerase (mkParties pids) x = mkParties (pids.erase x) := by
  intro pids
  induction pids with
  | nil => intro _; rfl
  | cons p rest ih =>
      intro hnd
      rw [List.nodup_cons] at hnd
      by_cases hp : p = x
      · subst hp
        rw [List.erase_cons_head]
        rw [show aerase (mkParties (p :: rest)) p = aerase (mkParties rest) p from by
          simp [mkParties, aerase]]
        exact aerase_mkParties_not_mem rest p hnd.1
      · have hbeq : ¬(p == x) = true := by simp [hp]
        rw [List.erase_cons_tail hbeq]
        simp [mkParties, aerase, hp, ih hnd.2]

/-- `leaveShell` for one of at least two parties of a registered session:
that party is removed, the session stays in the table, no close happens,
no error is returned. -/
theorem leaveShell_mem_parties (sid x : String) (pids wids : List String) (t : Term)
    (closeRes : Option GoError) (hx : x ∈ pids) (hnd : pids.Nodup)
    (hne : pids.erase x ≠ []) :
    Registry.leaveShell
        { sessions := [(sid, { id := sid, parties := mkParties pids,
                               writerIds := wids, t := some t })] } sid x closeRes =
      ({ sessions := [(sid, { id := sid, parties := mkParties (pids.erase x),
                              writerIds := widErase wids x, t := some t })] }, [], none) := by
  have h1 := alookup_mkParties_mem x pids hx
  have h2 := aerase_mkParties_erase x pids hnd
  have h3 : (mkParties (pids.erase x)).length ≠ 0 := by
    rw [mkParties_length]
    cases he : pids.erase x with
    | nil => exact absurd he hne
    | cons a l => simp
  simp [Registry.leaveShell, Registry.findSession, alookup, Session.leave, h1, h2, h3,
    ainsert]

/-- Draining all parties of the only registered session through
`leaveShell`, in any order, empties the table, closes the terminal
exactly once (on the last leave), makes every non-final call succeed and
surfaces the close outcome from the final call. -/
theorem runLeaves_drain (sid : String) (t : Term) (closeRes : Option GoError) :
    ∀ order : List String, order ≠ [] →
      ∀ pids wids : List String, order.Perm pids → pids.Nodup →
        runLeaves { sessions := [(sid, { id := sid, parties := mkParties pids,
                                         writerIds := wids, t := some t })] }
            sid closeRes order =
          ({ sessions := [] }, [Event.termClosed t],
           List.replicate (order.length - 1) none ++ [closeRes]) := by
  intro order
  induction order with
  | nil => intro h; exact absurd rfl h
  | cons x rest ih =>
      intro _ pids wids hperm hnd
      have hx : x ∈ pids := hperm.subset (List.mem_cons_self x rest)
      have hrest : rest.Perm (pids.erase x) := (List.cons_perm_iff_perm_erase.mp hperm).2
      cases rest with
      | nil =>
          have hpids : pids = [x] := by
            have hlen : pids.length = 1 := by simpa using hperm.length_eq.symm
            obtain ⟨a, ha⟩ := List.length_eq_one.mp hlen
            subst ha
            have hax : x = a := by simpa using hx
            rw [hax]
          rw [hpids]
          rw [runLeaves_cons, leaveShell_last_party sid x wids t closeRes]
          simp [runLeaves]
      | cons y ys =>
          have hne2 : pids.erase x ≠ [] := by
            intro hc
            rw [hc] at hrest
            have hl := hrest.length_eq
            simp at hl
          have hstep := leaveShell_mem_parties sid x pids wids t closeRes hx hnd hne2
          have ihv := ih (by simp) (pids.erase x) (widErase wids x) hrest
            (List.Nodup.erase x hnd)
          rw [runLeaves_cons, hstep]
          simp [ihv, List.replicate_succ]

/-- C2: after attaching parties with the (distinct) ids `pids` to one
registered session and then calling `leaveShell` for all of them, in any
order, the session is absent from the registry's table and the terminal's
`Close` has been invoked exactly once; every call before the last returns
no error, and the last call surfaces the terminal's close outcome — even
when that outcome is an error the session has already been removed. -/
theorem last_party_closes_once (sid : String) (order pids wids : List String) (t : Term)
    (closeRes : Option GoError) (reg : Registry)
    (hreg : reg.sessions = [(sid, { id := sid, parties := mkParties pids,
                                    writerIds := wids, t := some t })])
    (hperm : order.Perm pids) (hne : order ≠ []) (hnd : pids.Nodup) :
    (runLeaves reg sid closeRes order).1.findSession sid = none ∧
    closes (runLeaves reg sid closeRes order).2.1 = 1 ∧
    (runLeaves reg sid closeRes order).2.2 =
      List.replicate (order.length - 1) none ++ [closeRes] := by
  obtain ⟨sessions⟩ := reg
  simp only at hreg
  subst hreg
  rw [runLeaves_drain sid t closeRes order hne pids wids hperm hnd]
  refine ⟨?_, ?_, rfl⟩
  · simp [Registry.findSession, alookup]
  · simp [closes, isClose]

/-- Witness for C2: parties "a" and "b" leave in the order "b" then "a",
with a failing terminal close; the first leave succeeds, the last
surfaces the close error, the table is empty and exactly one close
happened. -/
theorem last_party_closes_once_witness :
    (runLeaves { sessions := [(("s" : String), { id := "s", parties := mkParties ["a", "b"],
                                                 writerIds := ["capture", "a", "b"],
                                                 t := some { tid := 0 } })] } "s"
        (some (GoError.other 7)) ["b", "a"]).1.findSession "s" = none ∧
    closes (runLeaves { sessions := [(("s" : String), { id := "s", parties := mkParties ["a", "b"],
                                                        writerIds := ["capture", "a", "b"],
                                                        t := some { tid := 0 } })] } "s"
        (some (GoError.other 7)) ["b", "a"]).2.1 = 1 ∧
    (runLeaves { sessions := [(("s" : String), { id := "s", parties := mkParties ["a", "b"],
                                                 writerIds := ["capture", "a", "b"],
                                                 t := some { tid := 0 } })] } "s"
        (some (GoError.other 7)) ["b", "a"]).2.2 = [none, some (GoError.other 7)] := by
  have h := last_party_closes_once "s" ["b", "a"] ["a", "b"] ["capture", "a", "b"]
    { tid := 0 } (some (GoError.other 7)) _ rfl (by decide) (by decide) (by decide)
  exact ⟨h.1, h.2.1, h.2.2.trans (by decide)⟩

/-- Unfolding lemma for `runCalls` on a non-empty call list. -/
theorem runCalls_cons (reg : Registry) (c : RegCall) (cs : List RegCall) :
    runCalls reg (c :: cs) =
      ((runCalls (applyCall reg c).reg cs).1,
       (applyCall reg c).events ++ (runCalls (applyCall reg c).reg cs).2.1,
       (applyCall reg c).err :: (runCalls (applyCall reg c).reg cs).2.2) := rfl

/-- `joinShell` on a session id that is present in the table joins the
found session: a new party is attached, no terminal event occurs, no
error is returned. -/
theorem joinShell_found (reg : Registry) (sid : String) (ctx : Ctx) (env : CallEnv)
    (sess : Session) (h : reg.findSession sid = some sess) :
    reg.joinShell sid ctx env =
      { reg := { sessions :=
          ainsert reg.sessions sid (sess.addParty ctx { pid := env.partyId }).1 },
        ctx := (sess.addParty ctx { pid := env.partyId }).2,
        events := [], err := none } := by
  simp [Registry.joinShell, Session.join, h]

/-- Running a sequence of `joinShell` calls for a session id that is
present in the table: no terminal event occurs, every call succeeds, and
the session — still present — gains exactly one party per call (the
supplied fresh party ids being distinct and new to the session). -/
theorem runJoins (sid : String) :
    ∀ (tail : List (Ctx × CallEnv)) (reg : Registry) (sess : Session),
      reg.findSession sid = some sess →
      (∀ q ∈ tail, alookup sess.parties q.2.partyId = none) →
      (tail.map (fun q => q.2.partyId)).Nodup →
      (runCalls reg (tail.map (fun q => RegCall.joinShell sid q.1 q.2))).2.1 = [] ∧
      (runCalls reg (tail.map (fun q => RegCall.joinShell sid q.1 q.2))).2.2 =
        List.replicate tail.length none ∧
      ∃ s2, (runCalls reg
          (tail.map (fun q => RegCall.joinShell sid q.1 q.2))).1.findSession sid =
            some s2 ∧
        s2.parties.length = sess.parties.length + tail.length := by
  intro tail
  induction tail with
  | nil =>
      intro reg sess h _ _
      exact ⟨rfl, rfl, sess, h, rfl⟩
  | cons q qs ih =>
      intro reg sess h hfresh hnd
      rw [List.map_cons, List.nodup_cons] at hnd
      have hfr : alookup sess.parties q.2.partyId = none := hfresh q (by simp)
      have hins : ainsert sess.parties q.2.partyId { pid := q.2.partyId } =
          sess.parties ++ [(q.2.partyId, { pid := q.2.partyId })] :=
        ainsert_of_alookup_none _ _ _ hfr
      have hj := joinShell_found reg sid q.1 q.2 sess h
      have hs1p : (sess.addParty q.1 { pid := q.2.partyId }).1.parties =
          sess.parties ++ [(q.2.partyId, { pid := q.2.partyId })] := hins
      have hfind :
          Registry.findSession
              { sessions := ainsert reg.sessions sid (sess.addParty q.1 { pid := q.2.partyId }).1 }
              sid =
            some (sess.addParty q.1 { pid := q.2.partyId }).1 :=
        alookup_ainsert_self reg.sessions sid _
      have hfresh2 : ∀ q' ∈ qs,
          alookup (sess.addParty q.1 { pid := q.2.partyId }).1.parties q'.2.partyId =
            none := by
        intro q' hq'
        rw [hs1p]
        refine alookup_append_single_none _ _ _ _ (hfresh q' (by simp [hq'])) ?_
        intro hc
        exact hnd.1 (hc ▸ List.mem_map_of_mem (fun q0 => q0.2.partyId) hq')
      obtain ⟨h1, h2, s2, h3, h4⟩ := ih
        { sessions := ainsert reg.sessions sid (sess.addParty q.1 { pid := q.2.partyId }).1 }
        (sess.addParty q.1 { pid := q.2.partyId }).1 hfind hfresh2 hnd.2
      refine ⟨?_, ?_, s2, ?_, ?_⟩
      · rw [List.map_cons, runCalls_cons]
        simp only [applyCall, hj]
        simpa using h1
      · rw [List.map_cons, runCalls_cons]
        simp only [applyCall, hj]
        simpa [List.replicate_succ] using h2
      · rw [List.map_cons, runCalls_cons]
        simp only [applyCall, hj]
        simpa using h3
      · rw [h4, hs1p]
        simp only [List.length_append, List.length_cons, List.length_nil]
        omega

/-- C1 (amended): for any call sequence for one session id in which the
first call is `newShell` or `joinShell` (succeeding, on a table not yet
holding the id) and every later call is `joinShell`, exactly one terminal
is acquired and the command is run once: the first call does it, and each
later call attaches one more (fresh-id) party to the already existing
session with no further terminal event and no error. -/
theorem one_terminal_per_session (reg0 : Registry) (sid : String) (ctx : Ctx)
    (env : CallEnv) (tail : List (Ctx × CallEnv)) (first : RegCall)
    (h0 : reg0.findSession sid = none)
    (hfirst : first = RegCall.newShell sid ctx env ∨
      first = RegCall.joinShell sid ctx env)
    (hok : ((newSession sid).start ctx env).err = none)
    (hnd : (env.partyId :: tail.map (fun q => q.2.partyId)).Nodup) :
    acquires (runCalls reg0
        (first :: tail.map (fun q => RegCall.joinShell sid q.1 q.2))).2.1 = 1 ∧
    (runCalls reg0
        (first :: tail.map (fun q => RegCall.joinShell sid q.1 q.2))).2.2 =
      List.replicate (tail.length + 1) none ∧
    ∃ s2, (runCalls reg0
        (first :: tail.map (fun q => RegCall.joinShell sid q.1 q.2))).1.findSession sid =
          some s2 ∧
      s2.parties.length = tail.length + 1 := by
  rw [List.nodup_cons] at hnd
  have happ : applyCall reg0 first = reg0.newShell sid ctx env := by
    rcases hfirst with rfl | rfl
    · rfl
    · simp [applyCall, Registry.joinShell, h0]
  obtain ⟨ev, t, hev, hevents, hsess⟩ := start_ok_shape (newSession sid) ctx env hok
  have hid : ((newSession sid).start ctx env).sess.id = sid :=
    start_sess_id (newSession sid) ctx env
  have hreg1 : (reg0.newShell sid ctx env).reg =
      { sessions := ainsert reg0.sessions sid ((newSession sid).start ctx env).sess } := by
    simp [Registry.newShell, hok, hid]
  have herr1 : (reg0.newShell sid ctx env).err = none := by
    simp [Registry.newShell, hok]
  have hev1 : (reg0.newShell sid ctx env).events = [ev, Event.commandRun] := by
    rw [← hevents]
    simp [Registry.newShell, hok]
  have hfind :
      Registry.findSession
          { sessions := ainsert reg0.sessions sid ((newSession sid).start ctx env).sess }
          sid =
        some ((newSession sid).start ctx env).sess :=
    alookup_ainsert_self reg0.sessions sid _
  have hparties : ((newSession sid).start ctx env).sess.parties =
      [(env.partyId, { pid := env.partyId })] := by
    rw [hsess]
    rfl
  have hfresh : ∀ q ∈ tail,
      alookup ((newSession sid).start ctx env).sess.parties q.2.partyId = none := by
    intro q hq
    rw [hparties]
    have hne : env.partyId ≠ q.2.partyId := by
      intro hc
      exact hnd.1 (hc ▸ List.mem_map_of_mem (fun q0 => q0.2.partyId) hq)
    simp [alookup, hne]
  obtain ⟨h1, h2, s2, h3, h4⟩ := runJoins sid tail
    { sessions := ainsert reg0.sessions sid ((newSession sid).start ctx env).sess }
    ((newSession sid).start ctx env).sess hfind hfresh hnd.2
  refine ⟨?_, ?_, s2, ?_, ?_⟩
  · rw [runCalls_cons, happ, hreg1, hev1, h1, acquires, List.append_nil]
    cases ev with
    | termAllocated t2 => simp [isAcquire]
    | termAdopted t2 => simp [isAcquire]
    | commandRun => exact absurd hev (by simp [isAcquire])
    | termClosed t2 => exact absurd hev (by simp [isAcquire])
  · rw [runCalls_cons, happ, hreg1, hev1, herr1, h2]
    simp [List.replicate_succ, List.replicate_succ']
  · rw [runCalls_cons, happ, hreg1]
    exact h3
  · rw [h4, hparties]
    simp [Nat.add_comm]

/-- Witness for C1 (amended): one `newShell` followed by one `joinShell`
for the same id acquires exactly one terminal, both calls succeed, and
the session holds two parties. -/
theorem one_terminal_per_session_witness :
    acquires (runCalls { sessions := [] }
        [RegCall.newShell "s" { term := none, closers := [] }
            { partyId := "p1", newTermResult := TermAlloc.ok { tid := 0 },
              runResult := none },
         RegCall.joinShell "s" { term := none, closers := [] }
            { partyId := "p2", newTermResult := TermAlloc.ok { tid := 1 },
              runResult := none }]).2.1 = 1 ∧
    (runCalls { sessions := [] }
        [RegCall.newShell "s" { term := none, closers := [] }
            { partyId := "p1", newTermResult := TermAlloc.ok { tid := 0 },
              runResult := none },
         RegCall.joinShell "s" { term := none, closers := [] }
            { partyId := "p2", newTermResult := TermAlloc.ok { tid := 1 },
              runResult := none }]).2.2 = [none, none] ∧
    ∃ s2, (runCalls { sessions := [] }
        [RegCall.newShell "s" { term := none, closers := [] }
            { partyId := "p1", newTermResult := TermAlloc.ok { tid := 0 },
              runResult := none },
         RegCall.joinShell "s" { term := none, closers := [] }
            { partyId := "p2", newTermResult := TermAlloc.ok { tid := 1 },
              runResult := none }]).1.findSession "s" = some s2 ∧
      s2.parties.length = 2 := by
  have h := one_terminal_per_session { sessions := [] } "s"
    { term := none, closers := [] }
    { partyId := "p1", newTermResult := TermAlloc.ok { tid := 0 }, runResult := none }
    [({ term := none, closers := [] },
      { partyId := "p2", newTermResult := TermAlloc.ok { tid := 1 }, runResult := none })]
    (RegCall.newShell "s" { term := none, closers := [] }
      { partyId := "p1", newTermResult := TermAlloc.ok { tid := 0 }, runResult := none })
    (by decide) (Or.inl rfl) (by decide) (by decide)
  exact ⟨h.1, h.2.1.trans (by decide), h.2.2⟩

/-- Counterexample to C1 as stated: two successful `newShell` calls with
the same session id form a sequence of `newShell`/`joinShell` calls for
one id in which two terminals are created and two commands are run — the
second call does not attach to the existing session but replaces it. -/
theorem newShell_twice_creates_two_terminals :
    (runCalls { sessions := [] }
        [RegCall.newShell "s" { term := none, closers := [] }
            { partyId := "p1", newTermResult := TermAlloc.ok { tid := 0 },
              runResult := none },
         RegCall.newShell "s" { term := none, closers := [] }
            { partyId := "p2", newTermResult := TermAlloc.ok { tid := 1 },
              runResult := none }]).2.2 = [none, none] ∧
    acquires (runCalls { sessions := [] }
        [RegCall.newShell "s" { term := none, closers := [] }
            { partyId := "p1", newTermResult := TermAlloc.ok { tid := 0 },
              runResult := none },
         RegCall.newShell "s" { term := none, closers := [] }
            { partyId := "p2", newTermResult := TermAlloc.ok { tid := 1 },
              runResult := none }]).2.1 = 2 ∧ (2 : Nat) ≠ 1 := by decide

end Teleport
